import Mathlib

/-!
Verification of the vocode-python speech-synthesis delivery pipeline
against its natural-language specification.

The Python sources are shallowly embedded: byte strings become `List Nat`,
Python floats become `ℚ` (exact rational arithmetic; the claims under study
are about slice bounds, orderings and control flow, not float rounding),
fallible code returns `Except`/`Option`, and the stateful output channel
becomes an explicit state machine with a step relation.
-/

namespace Vocode

/-! ## Python slice semantics

`pySlice l a b` models the Python expression `l[a:b]` (step 1) on a
sequence `l`: a negative bound counts from the end, bounds are clamped to
`[0, len(l)]`, and an empty slice results when the effective start is not
below the effective stop. -/

def pyBound (n : Nat) (a : Int) : Nat :=
  if a < 0 then (max 0 ((n : Int) + a)).toNat else min a.toNat n

def pySlice {α : Type} (l : List α) (a b : Int) : List α :=
  (l.take (pyBound l.length b)).drop (pyBound l.length a)

theorem pyBound_le (n : Nat) (a : Int) : pyBound n a ≤ n := by
  unfold pyBound
  split
  · omega
  · omega

theorem pyBound_of_nonneg (n : Nat) (a : Int) (h : 0 ≤ a) :
    pyBound n a = min a.toNat n := by
  unfold pyBound
  split
  · omega
  · rfl

theorem pySlice_length {α : Type} (l : List α) (a b : Int) :
    (pySlice l a b).length = pyBound l.length b - pyBound l.length a := by
  unfold pySlice
  simp [List.length_drop, List.length_take]
  have := pyBound_le l.length b
  omega

theorem pySlice_eq_drop_take {α : Type} (l : List α) (a b : Int) :
    pySlice l a b =
      (l.drop (pyBound l.length a)).take
        (pyBound l.length b - pyBound l.length a) := by
  unfold pySlice
  rw [List.drop_take]

/-! ## `trim_audio` (src/vocode/streaming/utils/__init__.py)

`offset_s` and `duration_s` are Python floats, modelled as rationals;
`int(x)` for the nonnegative products below is truncation = floor. The
source computes the offset and duration in bytes, clamps the duration
against `total_bytes`, rebases the offset into the retained window, and
either returns the buffer unchanged (when `duration_bytes == 0` or the
buffer holds at most one second) or a Python slice. -/

def trim_offset_bytes0 (sampling_rate : Nat) (offset_s : ℚ) : Int :=
  ⌊max 0 offset_s * 2 * (sampling_rate : ℚ)⌋

def trim_duration_bytes0 (sampling_rate : Nat) (duration_s : ℚ) : Int :=
  ⌊max 0 duration_s * 2 * (sampling_rate : ℚ)⌋

/-- The duration in bytes after the clamp `duration_bytes = total_bytes -
offset_bytes` that the source applies when `offset_bytes + duration_bytes`
exceeds `total_bytes`. -/
def trim_duration_bytes (sampling_rate : Nat) (total_bytes : Nat)
    (offset_s duration_s : ℚ) : Int :=
  let ob := trim_offset_bytes0 sampling_rate offset_s
  let db := trim_duration_bytes0 sampling_rate duration_s
  if ob + db > (total_bytes : Int) then (total_bytes : Int) - ob else db

/-- The offset in bytes after rebasing into the retained window
(`offset_bytes -= total_bytes; offset_bytes += len(audio_buffer);
offset_bytes = max(0, offset_bytes)`). -/
def trim_offset_bytes (sampling_rate : Nat) (buffer_len : Nat)
    (total_bytes : Nat) (offset_s : ℚ) : Int :=
  max 0 (trim_offset_bytes0 sampling_rate offset_s - (total_bytes : Int)
    + (buffer_len : Int))

def trim_audio (sampling_rate : Nat) (audio_buffer : List Nat)
    (total_bytes : Nat) (offset_s duration_s : ℚ) : List Nat :=
  let db := trim_duration_bytes sampling_rate total_bytes offset_s duration_s
  let ob := trim_offset_bytes sampling_rate audio_buffer.length total_bytes
    offset_s
  if db = 0 ∨ audio_buffer.length ≤ 2 * sampling_rate then audio_buffer
  else pySlice audio_buffer ob (ob + db)

theorem trim_offset_bytes_nonneg (r bl tb : Nat) (o : ℚ) :
    0 ≤ trim_offset_bytes r bl tb o := by
  unfold trim_offset_bytes
  exact le_max_left 0 _

theorem trim_offset_bytes0_nonneg (r : Nat) (o : ℚ) :
    0 ≤ trim_offset_bytes0 r o := by
  unfold trim_offset_bytes0
  have h : (0 : ℚ) ≤ max 0 o * 2 * (r : ℚ) := by positivity
  exact Int.floor_nonneg.mpr h

/-- In `trim_audio`, the slice stop `offset_bytes + duration_bytes` is never
negative: either no clamp happened (both summands nonnegative), or the clamp
makes the stop collapse to `buffer_len` or to a positive duration. -/
theorem trim_stop_nonneg (r bl tb : Nat) (o d : ℚ) :
    0 ≤ trim_offset_bytes r bl tb o + trim_duration_bytes r tb o d := by
  have h0 := trim_offset_bytes0_nonneg r o
  have hd0 : 0 ≤ trim_duration_bytes0 r d := by
    unfold trim_duration_bytes0
    have h : (0 : ℚ) ≤ max 0 d * 2 * (r : ℚ) := by positivity
    exact Int.floor_nonneg.mpr h
  unfold trim_offset_bytes trim_duration_bytes
  have h1 := le_max_left (0 : Int)
    (trim_offset_bytes0 r o - (tb : Int) + (bl : Int))
  have h2 := le_max_right (0 : Int)
    (trim_offset_bytes0 r o - (tb : Int) + (bl : Int))
  simp only []
  split
  · omega
  · omega

/-- `trim_audio` returns the buffer unchanged in the source's fallback
branch (`duration_bytes == 0` or a buffer of at most one second). -/
theorem trim_audio_fallback (r : Nat) (buf : List Nat) (tb : Nat)
    (o d : ℚ)
    (h : trim_duration_bytes r tb o d = 0 ∨ buf.length ≤ 2 * r) :
    trim_audio r buf tb o d = buf := by
  unfold trim_audio
  simp only []
  exact if_pos h

/-- C2, counterexample: with `sampling_rate = 2`, a 3-byte buffer (shorter
than one second), `total_bytes = 3`, `offset_s = 0` and `duration_s = 1/4`,
the computed `durationBytes` is `1`, yet `trim_audio` returns the whole
3-byte buffer: its length exceeds `min(durationBytes, bufferLen) = 1`,
refuting the claimed bound. -/
theorem C2_counterexample :
    ¬ ((trim_audio 2 (7 :: 7 :: 7 :: []) 3 0 (1/4)).length ≤
        min (trim_duration_bytes 2 3 0 (1/4)).toNat 3) := by
  have h1 : trim_duration_bytes 2 3 0 (1/4) = 1 := by
    norm_num [trim_duration_bytes, trim_duration_bytes0, trim_offset_bytes0]
  have h2 : trim_audio 2 (7 :: 7 :: 7 :: []) 3 0 (1/4) = (7 :: 7 :: 7 :: []) :=
    trim_audio_fallback 2 _ 3 0 (1/4) (Or.inr (by decide))
  rw [h1, h2]
  decide

/-- C2 (amended): whenever the computed `durationBytes` is nonzero and the
buffer holds more than one second of audio (the branch where `trim_audio`
actually slices), the result's length is at most `durationBytes` and at most
the buffer length, and the result is a contiguous segment of the buffer
starting at an index within `[0, bufferLen]`. In the remaining branch the
source returns the buffer unchanged, which can exceed `durationBytes`. -/
theorem C2_trim_audio_bounds (r : Nat) (buf : List Nat) (tb : Nat)
    (o d : ℚ) (hdb : trim_duration_bytes r tb o d ≠ 0)
    (hbig : 2 * r < buf.length) :
    (trim_audio r buf tb o d).length ≤ (trim_duration_bytes r tb o d).toNat ∧
    (trim_audio r buf tb o d).length ≤ buf.length ∧
    ∃ s k, s ≤ buf.length ∧ trim_audio r buf tb o d = (buf.drop s).take k := by
  have hob := trim_offset_bytes_nonneg r buf.length tb o
  have hstop := trim_stop_nonneg r buf.length tb o d
  unfold trim_audio
  simp only []
  rw [if_neg (by push_neg; exact ⟨hdb, by omega⟩)]
  have hlen := pySlice_length buf
    (trim_offset_bytes r buf.length tb o)
    (trim_offset_bytes r buf.length tb o + trim_duration_bytes r tb o d)
  rw [pyBound_of_nonneg _ _ hob, pyBound_of_nonneg _ _ hstop] at hlen
  refine ⟨by omega, by omega, ?_⟩
  refine ⟨pyBound buf.length (trim_offset_bytes r buf.length tb o), _,
    pyBound_le _ _, pySlice_eq_drop_take buf _ _⟩

/-- C2 witness: a concrete instance of the amended bound, with
`sampling_rate = 1`, buffer `[1, 2, 3]`, `total_bytes = 3`, `offset_s = 0`,
`duration_s = 1` (so `durationBytes = 2`). -/
theorem C2_witness :
    trim_duration_bytes 1 3 0 1 ≠ 0 ∧ 2 * 1 < (1 :: 2 :: 3 :: []).length ∧
    ((trim_audio 1 (1 :: 2 :: 3 :: []) 3 0 1).length ≤
        (trim_duration_bytes 1 3 0 1).toNat ∧
      (trim_audio 1 (1 :: 2 :: 3 :: []) 3 0 1).length ≤
        (1 :: 2 :: 3 :: []).length ∧
      ∃ s k, s ≤ (1 :: 2 :: 3 :: []).length ∧
        trim_audio 1 (1 :: 2 :: 3 :: []) 3 0 1 =
          ((1 :: 2 :: 3 :: []).drop s).take k) := by
  have hdb : trim_duration_bytes 1 3 0 1 = 2 := by
    norm_num [trim_duration_bytes, trim_duration_bytes0, trim_offset_bytes0]
  exact ⟨by rw [hdb]; decide, by decide,
    C2_trim_audio_bounds 1 (1 :: 2 :: 3 :: []) 3 0 1 (by rw [hdb]; decide)
      (by decide)⟩

/-- C5, counterexample: with `sampling_rate = 1`, buffer `[5, 6, 7]` (longer
than one second = 2 bytes), `total_bytes = 4`, `offset_s = 5`,
`duration_s = 1`, the clamp makes `durationBytes = -6 ≤ 0`, but `trim_audio`
does not return the buffer unchanged: since the source tests
`duration_bytes == 0` (not `<= 0`), it takes the slice branch and returns the
empty slice. -/
theorem C5_counterexample :
    trim_duration_bytes 1 4 5 1 ≤ 0 ∧
    trim_audio 1 (5 :: 6 :: 7 :: []) 4 5 1 ≠ (5 :: 6 :: 7 :: []) := by
  have hdb : trim_duration_bytes 1 4 5 1 = -6 := by
    norm_num [trim_duration_bytes, trim_duration_bytes0, trim_offset_bytes0]
  have hob : trim_offset_bytes 1 3 4 5 = 9 := by
    norm_num [trim_offset_bytes, trim_offset_bytes0]
  refine ⟨by rw [hdb]; decide, ?_⟩
  unfold trim_audio
  simp only [List.length_cons, List.length_nil]
  rw [hdb]
  rw [show (2 + 1 : Nat) = 3 from rfl] at *
  rw [hob]
  decide

/-- C5 (amended): `trim_audio` returns the input buffer unchanged exactly in
the source's fallback branch, i.e. when the computed `durationBytes` equals
zero — not merely `≤ 0` — or the buffer holds at most one second of audio
(`≤ 2 * sampling_rate` bytes); a negative clamped `durationBytes` with a
longer buffer instead produces a slice. -/
theorem C5_trim_audio_unchanged (r : Nat) (buf : List Nat) (tb : Nat)
    (o d : ℚ)
    (h : trim_duration_bytes r tb o d = 0 ∨ buf.length ≤ 2 * r) :
    trim_audio r buf tb o d = buf :=
  trim_audio_fallback r buf tb o d h

/-- C5 witness: with `sampling_rate = 1`, buffer `[1]`, `total_bytes = 0`
and zero offset and duration, `durationBytes = 0` and the buffer is returned
unchanged. -/
theorem C5_witness :
    (trim_duration_bytes 1 0 0 0 = 0 ∨ ((1 : Nat) :: []).length ≤ 2 * 1) ∧
    trim_audio 1 ((1 : Nat) :: []) 0 0 0 = ((1 : Nat) :: []) := by
  have hdb : trim_duration_bytes 1 0 0 0 = 0 := by
    norm_num [trim_duration_bytes, trim_duration_bytes0, trim_offset_bytes0]
  exact ⟨Or.inl hdb, C5_trim_audio_unchanged 1 _ 0 0 0 (Or.inl hdb)⟩

/-! ## Audio encodings and `convert_linear_audio` -/

/-- Modelled from the spec: the `AudioEncoding` enum is declared in
`vocode/streaming/models/audio_encoding.py`, which is not among the sources
under study. Spec §4.1 describes `convertLinearAudio` as re-encoding to one
of `{linear16, mu-law}` and failing otherwise, so the encoding type is
modelled with the two named encodings plus `OTHER`, standing for any
encoding value outside that set. -/
inductive AudioEncoding
  | LINEAR16
  | MULAW
  | OTHER
deriving DecidableEq

/-- `convert_linear_audio` (src/vocode/streaming/utils/__init__.py). The
resampler `ratecv` and the mu-law encoder `lin2ulaw` are the Python stdlib
`audioop` routines — external collaborators — taken as parameters. The
source resamples when the rates differ, then returns on `LINEAR16` or
`MULAW`; for any other encoding it falls off the `if/elif` chain, so Python
returns `None`. The `Except` layer records whether an exception escapes
(the source has no `raise` path, so every branch is `.ok`) and the `Option`
is the returned Python value (`none` = Python `None`). -/
def convert_linear_audio (ratecv : List Nat → Nat → Nat → List Nat)
    (lin2ulaw : List Nat → List Nat) (raw_wav : List Nat)
    (input_sample_rate output_sample_rate : Nat)
    (output_encoding : AudioEncoding) : Except String (Option (List Nat)) :=
  let resampled := if input_sample_rate ≠ output_sample_rate
    then ratecv raw_wav input_sample_rate output_sample_rate
    else raw_wav
  if output_encoding = AudioEncoding.LINEAR16 then
    Except.ok (some resampled)
  else if output_encoding = AudioEncoding.MULAW then
    Except.ok (some (lin2ulaw resampled))
  else
    Except.ok none

/-- `get_chunk_size_per_second` (same file): unlike `convert_linear_audio`,
this sibling does raise an "Unsupported audio encoding" exception in its
`else` branch. -/
def get_chunk_size_per_second (audio_encoding : AudioEncoding)
    (sampling_rate : Nat) : Except String Nat :=
  if audio_encoding = AudioEncoding.LINEAR16 then
    Except.ok (sampling_rate * 2)
  else if audio_encoding = AudioEncoding.MULAW then
    Except.ok sampling_rate
  else
    Except.error "Unsupported audio encoding"

/-- C6, counterexample: for an output encoding outside
`{linear16, mu-law}`, `convert_linear_audio` does not fail with an
`UnsupportedEncoding` error — it silently returns Python `None`
(`Except.ok Option.none`), a non-error value. -/
theorem C6_counterexample :
    convert_linear_audio (fun raw _ _ => raw) (fun raw => raw)
      (0 :: []) 24000 8000 AudioEncoding.OTHER = Except.ok none := by
  rfl

/-- C6 (amended): `convert_linear_audio` never raises — every input yields
an `Except.ok` value; for `linear16` and `mu-law` it returns re-encoded PCM
(`some` of the resampled, possibly mu-law-encoded bytes), while for any
other output encoding it silently returns Python `None` instead of failing
with `UnsupportedEncoding`. -/
theorem C6_convert_linear_audio_silent
    (ratecv : List Nat → Nat → Nat → List Nat)
    (lin2ulaw : List Nat → List Nat) (raw : List Nat) (ir orr : Nat)
    (enc : AudioEncoding) :
    (∃ v, convert_linear_audio ratecv lin2ulaw raw ir orr enc =
      Except.ok v) ∧
    (enc ≠ AudioEncoding.LINEAR16 → enc ≠ AudioEncoding.MULAW →
      convert_linear_audio ratecv lin2ulaw raw ir orr enc =
        Except.ok none) ∧
    (convert_linear_audio ratecv lin2ulaw raw ir orr
        AudioEncoding.LINEAR16 =
      Except.ok (some (if ir ≠ orr then ratecv raw ir orr else raw))) ∧
    (convert_linear_audio ratecv lin2ulaw raw ir orr AudioEncoding.MULAW =
      Except.ok (some (lin2ulaw (if ir ≠ orr then ratecv raw ir orr
        else raw)))) := by
  refine ⟨?_, ?_, rfl, rfl⟩
  · cases enc <;> exact ⟨_, rfl⟩
  · intro h1 h2
    cases enc
    · exact absurd rfl h1
    · exact absurd rfl h2
    · rfl

/-- C6 witness: the amended statement at a concrete instance, with the
identity stand-ins for the `audioop` routines and the `OTHER` encoding. -/
theorem C6_witness :
    convert_linear_audio (fun raw _ _ => raw) (fun raw => raw)
      (1 :: 2 :: []) 24000 8000 AudioEncoding.OTHER = Except.ok none :=
  (C6_convert_linear_audio_silent (fun raw _ _ => raw) (fun raw => raw)
    (1 :: 2 :: []) 24000 8000 AudioEncoding.OTHER).2.1
    (by decide) (by decide)

/-! ## WAV header detection -/

/-- The bytes of `b"RIFF"`. -/
def riffMagic : List Nat := 82 :: 73 :: 70 :: 70 :: []

/-- The bytes of `b"WAVE"`. -/
def waveMagic : List Nat := 87 :: 65 :: 86 :: 69 :: []

/-- `has_wav_header` (src/vocode/streaming/utils/__init__.py): `False` for
inputs shorter than 12 bytes, otherwise `byte_string.startswith(b'RIFF')
and byte_string[8:12] == b'WAVE'`. -/
def has_wav_header (byte_string : List Nat) : Bool :=
  if byte_string.length < 12 then false
  else decide (byte_string.take 4 = riffMagic) &&
    decide (pySlice byte_string 8 12 = waveMagic)

/-! ## `get_lipsync_events` window query (eleven_labs_synthesizer.py) -/

structure VisemeEvent where
  audio_offset : ℚ
  viseme_id : String
deriving DecidableEq

/-- `get_lipsync_events` (src/vocode/streaming/synthesizer/
eleven_labs_synthesizer.py, lines 32–39): the list comprehension keeps an
event only when `event["audio_offset"]` is truthy — a Python float is
truthy exactly when nonzero — AND `from_s <= audio_offset < to_s`; kept
events get their offset rebased by `- from_s` and keep their viseme id. -/
def get_lipsync_events (from_s to_s : ℚ)
    (lipsync_events : List VisemeEvent) : List VisemeEvent :=
  (lipsync_events.filter fun e =>
      decide (e.audio_offset ≠ 0) && decide (from_s ≤ e.audio_offset) &&
        decide (e.audio_offset < to_s)).map
    fun e => ⟨e.audio_offset - from_s, e.viseme_id⟩

/-- Modelled from the spec's words, for refinement comparison with
`get_lipsync_events`: "filter accumulated events to
`from_s <= offset < to_s`, rebasing offsets relative to `from_s`" — with no
truthiness test on the offset. -/
def get_lipsync_events_spec (from_s to_s : ℚ)
    (events : List VisemeEvent) : List VisemeEvent :=
  (events.filter fun e =>
      decide (from_s ≤ e.audio_offset) && decide (e.audio_offset < to_s)).map
    fun e => ⟨e.audio_offset - from_s, e.viseme_id⟩

/-- C4, counterexample: an event at `audio_offset = 0.0` lies inside the
window `[0, 1)` but is dropped by `get_lipsync_events`, because `0.0` is
Python-falsy and the comprehension requires `event["audio_offset"]` to be
truthy; the spec's filter would keep it. -/
theorem C4_counterexample :
    get_lipsync_events 0 1 (⟨0, "ovr_sil"⟩ :: []) = [] ∧
    get_lipsync_events_spec 0 1 (⟨0, "ovr_sil"⟩ :: []) =
      ⟨0, "ovr_sil"⟩ :: [] := by
  refine ⟨rfl, ?_⟩
  simp [get_lipsync_events_spec]

/-- C4 (amended): `get_lipsync_events` returns exactly those events whose
audio offset is nonzero (Python-truthy) and satisfies
`from_s ≤ audio_offset < to_s`, each with its offset rebased to
`audio_offset - from_s` and its viseme id unchanged; an event with
`audio_offset = 0.0` is dropped even when it lies inside the window. -/
theorem C4_get_lipsync_events_membership (from_s to_s : ℚ)
    (events : List VisemeEvent) (x : VisemeEvent) :
    x ∈ get_lipsync_events from_s to_s events ↔
      ∃ e, e ∈ events ∧ e.audio_offset ≠ 0 ∧ from_s ≤ e.audio_offset ∧
        e.audio_offset < to_s ∧
        x = ⟨e.audio_offset - from_s, e.viseme_id⟩ := by
  simp only [get_lipsync_events, List.mem_map, List.mem_filter,
    Bool.and_eq_true, decide_eq_true_eq]
  constructor
  · rintro ⟨e, ⟨he, ⟨hne, hlo⟩, hhi⟩, hx⟩
    exact ⟨e, he, hne, hlo, hhi, hx.symm⟩
  · rintro ⟨e, he, hne, hlo, hhi, hx⟩
    exact ⟨e, ⟨he, ⟨hne, hlo⟩, hhi⟩, hx.symm⟩

/-! ## OVRLipsync coprocess session
(src/vocode/streaming/synthesizer/ovrlipsync/ovrlipsync.py) -/

/-- Outcome of one exchange with the lipsync coprocess, as observed by
`process_frame`: a response line on stdout, a cancellation while awaiting,
or a fault (`asyncio.wait_for` timeout or any other exception — the
`except Exception` branch). -/
inductive FrameOutcome
  | response (line : String)
  | cancelled
  | fault

/-- Python `bytes.strip()`: remove leading and trailing whitespace. -/
def pyStrip (s : String) : String :=
  String.mk
    (((s.data.dropWhile Char.isWhitespace).reverse.dropWhile
      Char.isWhitespace).reverse)

/-- `process_frame` (ovrlipsync.py, lines 95–111). Under the session lock
the source writes the frame, awaits one response line with a timeout, and
returns the stripped line; on cancellation it returns `None`; on any other
exception it kills and relaunches the coprocess and retries the same frame
by calling itself recursively — with no attempt counter. The recursion is
modelled with explicit `fuel`: `oracle k` is the outcome of the k-th
exchange attempt for this frame, and a `none` result means no finite fuel
suffices, i.e. the source recursion never returns. -/
def process_frame (oracle : Nat → FrameOutcome) :
    Nat → Nat → Option (Option String)
  | 0, _ => none
  | fuel + 1, k =>
    match oracle k with
    | FrameOutcome.response line => some (some (pyStrip line))
    | FrameOutcome.cancelled => some none
    | FrameOutcome.fault => process_frame oracle fuel (k + 1)

/-- C3: against a coprocess that faults on every exchange of the frame,
`process_frame` never surfaces a fatal dependency error and never returns —
the restart-and-retry recursion has no counter and exceeds every finite
bound, contradicting the claimed explicit bound. -/
theorem C3_process_frame_unbounded (fuel k : Nat) :
    process_frame (fun _ => FrameOutcome.fault) fuel k = none := by
  induction fuel generalizing k with
  | zero => rfl
  | succ n ih => exact ih (k + 1)

/-! ## `detect_lipsync` — event mode -/

/-- The initial `byte_offset` of `detect_lipsync` (ovrlipsync.py, lines
121–123): the source skips 44 header bytes exactly when
`audio_data[0:4] == b"RIFF"`; it does not examine bytes 8–12. -/
def detect_start_offset (audio_data : List Nat) : Nat :=
  if pySlice audio_data 0 4 = riffMagic then 44 else 0

/-- Python `round(x, 2)`, modelled as nearest-integer rounding of `100 x`.
Mathlib's `round` rounds half up while Python rounds half to even on the
binary float; the two agree away from exact halves, and no theorem below
depends on the half case. -/
def round2 (q : ℚ) : ℚ := ((round (100 * q) : ℤ) : ℚ) / 100

/-- The while loop of `detect_lipsync` (ovrlipsync.py, lines 125–136) in
event mode (`print_as_array = False`), returning the lipsync events
appended from the current iteration on (the source accumulates the same
list by in-place `append`). `oracle i` is the decoded `process_frame`
response for the i-th processed frame. Each iteration slices a
`buffer_size` chunk, advances `byte_offset`, and — for full chunks only —
appends an event when the viseme is truthy and differs from the previous
frame's viseme, then updates `last_viseme` and advances `audio_offset` by
`buffer_ms / 1000` rounded to 2 decimals. Fuel counts remaining loop
iterations. -/
def detect_loop (oracle : Nat → String) (buffer_size buffer_ms : Nat)
    (audio_data : List Nat) :
    Nat → Nat → Nat → ℚ → Option String → List VisemeEvent
  | 0, _, _, _, _ => []
  | fuel + 1, idx, byte_offset, audio_offset, last_viseme =>
    if byte_offset < audio_data.length then
      if (pySlice audio_data (byte_offset : Int)
          ((byte_offset : Int) + (buffer_size : Int))).length = buffer_size
      then
        let viseme := oracle idx
        let rest := detect_loop oracle buffer_size buffer_ms audio_data fuel
          (idx + 1) (byte_offset + buffer_size)
          (round2 (audio_offset + (buffer_ms : ℚ) / 1000)) (some viseme)
        if viseme ≠ "" ∧ some viseme ≠ last_viseme then
          ⟨audio_offset, "ovr_" ++ viseme⟩ :: rest
        else rest
      else
        detect_loop oracle buffer_size buffer_ms audio_data fuel idx
          (byte_offset + buffer_size) audio_offset last_viseme
    else []

/-- Event-mode `detect_lipsync` (ovrlipsync.py, lines 113–140 with
`print_as_array = False`): start at the RIFF-dependent byte offset and walk
the audio in `buffer_size` chunks. Fuel `audio_data.length + 1` covers
every loop iteration whenever `buffer_size > 0`; with `buffer_size = 0`
(possible only when `sample_rate * buffer_ms < 1000`) the Python loop never
terminates. -/
def detect_lipsync_events (oracle : Nat → String)
    (buffer_size buffer_ms : Nat) (audio_data : List Nat)
    (audio_offset : ℚ) : List VisemeEvent :=
  detect_loop oracle buffer_size buffer_ms audio_data
    (audio_data.length + 1) 0 (detect_start_offset audio_data) audio_offset
    none

/-- C7, counterexample: a 12-byte input starting with `b"RIFF"` whose bytes
8–12 are not `b"WAVE"`. `detect_lipsync` skips 44 bytes (start offset 44),
yet `has_wav_header` — the spec's detection rule — is false, refuting
"skips ... exactly when the input carries a WAV header". -/
theorem C7_counterexample :
    detect_start_offset
        (riffMagic ++ (0 :: 0 :: 0 :: 0 :: 0 :: 0 :: 0 :: 0 :: [])) = 44 ∧
    has_wav_header
        (riffMagic ++ (0 :: 0 :: 0 :: 0 :: 0 :: 0 :: 0 :: 0 :: [])) =
      false := by
  decide

/-- C7 (amended): `detect_lipsync` skips the leading 44 bytes exactly when
the first four bytes of the input are `b"RIFF"` — bytes 8–12 are not
examined. Every input that carries a full WAV header (in the
`has_wav_header` sense: RIFF and WAVE) is therefore skipped, and audio
whose first four bytes are not `b"RIFF"` is processed from byte 0. -/
theorem C7_detect_start_offset (audio : List Nat) :
    (has_wav_header audio = true → detect_start_offset audio = 44) ∧
    (detect_start_offset audio = 44 ↔ audio.take 4 = riffMagic) ∧
    (audio.take 4 ≠ riffMagic → detect_start_offset audio = 0) := by
  have hslice : pySlice audio 0 4 = audio.take 4 := by
    unfold pySlice pyBound
    norm_num
    rfl
  unfold detect_start_offset
  rw [hslice]
  refine ⟨?_, ?_, ?_⟩
  · intro h
    unfold has_wav_header at h
    split at h
    · exact absurd h (by simp)
    · simp only [Bool.and_eq_true, decide_eq_true_eq] at h
      rw [if_pos h.1]
  · constructor
    · intro h
      by_contra hne
      rw [if_neg hne] at h
      exact absurd h (by decide)
    · intro h
      rw [if_pos h]
  · intro h
    rw [if_neg h]

/-- C7 witness: a full 12-byte RIFF/WAVE header is skipped, and a
non-RIFF input is processed from byte 0. -/
theorem C7_witness :
    detect_start_offset (riffMagic ++ (0 :: 0 :: 0 :: 0 :: []) ++ waveMagic)
        = 44 ∧
    detect_start_offset (1 :: 2 :: 3 :: []) = 0 :=
  ⟨(C7_detect_start_offset
      (riffMagic ++ (0 :: 0 :: 0 :: 0 :: []) ++ waveMagic)).1 (by decide),
    (C7_detect_start_offset (1 :: 2 :: 3 :: [])).2.2 (by decide)⟩

/-! ## Event-list invariants (for C8) -/

/-- Every event offset is at least `lb` and offsets are nondecreasing. -/
def orderedFrom (lb : ℚ) : List VisemeEvent → Bool
  | [] => true
  | e :: rest =>
    decide (lb ≤ e.audio_offset) && orderedFrom e.audio_offset rest

/-- Event offsets are nondecreasing. -/
def offsetsMono : List VisemeEvent → Bool
  | [] => true
  | e :: rest => orderedFrom e.audio_offset rest

/-- No event's viseme id equals its predecessor's (with `prev` the id of
the event before the list, if any). -/
def adjacentFrom (prev : Option String) : List VisemeEvent → Bool
  | [] => true
  | e :: rest =>
    (match prev with
      | none => true
      | some p => decide (e.viseme_id ≠ p)) &&
      adjacentFrom (some e.viseme_id) rest

/-- No two consecutive events carry the same viseme id. -/
def adjacentDistinct (evs : List VisemeEvent) : Bool := adjacentFrom none evs

theorem orderedFrom_weaken (lb lb' : ℚ) (evs : List VisemeEvent)
    (hle : lb' ≤ lb) (h : orderedFrom lb evs = true) :
    orderedFrom lb' evs = true := by
  cases evs with
  | nil => rfl
  | cons e rest =>
    simp only [orderedFrom, Bool.and_eq_true, decide_eq_true_eq] at h ⊢
    exact ⟨le_trans hle h.1, h.2⟩

theorem offsetsMono_of_orderedFrom (lb : ℚ) (evs : List VisemeEvent)
    (h : orderedFrom lb evs = true) : offsetsMono evs = true := by
  cases evs with
  | nil => rfl
  | cons e rest =>
    simp only [orderedFrom, Bool.and_eq_true] at h
    exact h.2

/-- A rational that is an integer multiple of `1/100` — the form every
output of `round2` takes, and the form of the default starting offset. -/
def onGrid (q : ℚ) : Prop := ∃ n : ℤ, q = (n : ℚ) / 100

theorem onGrid_round2 (x : ℚ) : onGrid (round2 x) := ⟨round (100 * x), rfl⟩

theorem onGrid_zero : onGrid 0 := ⟨0, by norm_num⟩

/-- Advancing an on-grid offset by a nonnegative step and re-rounding to
the grid never decreases it. -/
theorem round2_advance (q d : ℚ) (hq : onGrid q) (hd : 0 ≤ d) :
    q ≤ round2 (q + d) := by
  obtain ⟨n, rfl⟩ := hq
  unfold round2
  have h1 : 100 * ((n : ℚ) / 100 + d) = 100 * d + (n : ℤ) := by
    ring
  rw [h1, round_add_int]
  have h2 : 0 ≤ round (100 * d) := by
    rw [round_eq]
    have h3 : (0 : ℤ) ≤ ⌊(100 : ℚ) * d⌋ := Int.floor_nonneg.mpr (by positivity)
    have h4 : ⌊(100 : ℚ) * d⌋ ≤ ⌊100 * d + 1 / 2⌋ :=
      Int.floor_le_floor (by linarith)
    omega
  rw [div_le_div_iff_of_pos_right (by norm_num : (0:ℚ) < 100)]
  exact_mod_cast by exact_mod_cast Int.cast_le.mpr (by omega : n ≤ round (100 * d) + n)

/-- Event-mode loop invariant: starting from an on-grid audio offset, the
emitted events' offsets are bounded below by the current offset and are
nondecreasing. -/
theorem detect_loop_ordered (oracle : Nat → String) (bs ms : Nat)
    (audio : List Nat) :
    ∀ (fuel idx bo : Nat) (off : ℚ) (last : Option String),
      onGrid off →
      orderedFrom off (detect_loop oracle bs ms audio fuel idx bo off last)
        = true := by
  intro fuel
  induction fuel with
  | zero => intro idx bo off last _; rfl
  | succ n ih =>
    intro idx bo off last hgrid
    show orderedFrom off (detect_loop oracle bs ms audio (n + 1) idx bo off
      last) = true
    rw [detect_loop]
    split
    · split
      · have hstep : off ≤ round2 (off + (ms : ℚ) / 1000) :=
          round2_advance off ((ms : ℚ) / 1000) hgrid (by positivity)
        have hrest := ih (idx + 1) (bo + bs)
          (round2 (off + (ms : ℚ) / 1000)) (some (oracle idx))
          (onGrid_round2 _)
        have hrest' := orderedFrom_weaken _ off _ hstep hrest
        simp only []
        split
        · simp only [orderedFrom, Bool.and_eq_true, decide_eq_true_eq]
          exact ⟨le_refl off, hrest'⟩
        · exact hrest'
      · exact ih idx (bo + bs) off last hgrid
    · rfl

/-- Event-mode loop invariant: when every coprocess response is nonempty,
`last_viseme` tracks the raw viseme of the most recent event, and no two
consecutive emitted events share a viseme id. -/
theorem detect_loop_adjacent (oracle : Nat → String) (bs ms : Nat)
    (audio : List Nat) (hne : ∀ i, oracle i ≠ "") :
    ∀ (fuel idx bo : Nat) (off : ℚ) (last : Option String),
      adjacentFrom (last.map (fun l => "ovr_" ++ l))
        (detect_loop oracle bs ms audio fuel idx bo off last) = true := by
  intro fuel
  induction fuel with
  | zero => intro idx bo off last; rfl
  | succ n ih =>
    intro idx bo off last
    rw [detect_loop]
    split
    · split
      · have hrest := ih (idx + 1) (bo + bs)
          (round2 (off + (ms : ℚ) / 1000)) (some (oracle idx))
        simp only []
        split
        · rename_i hcond
          simp only [adjacentFrom, Bool.and_eq_true]
          refine ⟨?_, hrest⟩
          cases last with
          | none => rfl
          | some l =>
            show decide ("ovr_" ++ oracle idx ≠ "ovr_" ++ l) = true
            rw [decide_eq_true_eq]
            intro hcontra
            have hdata : ("ovr_" ++ oracle idx).data =
                ("ovr_" ++ l).data := by rw [hcontra]
            simp only [String.data_append] at hdata
            have : oracle idx = l :=
              String.ext (List.append_cancel_left hdata)
            exact hcond.2 (by rw [this])
        · rename_i hcond
          have hlast : last = some (oracle idx) := by
            rcases Decidable.not_and_iff_or_not.mp hcond with h | h
            · exact absurd (hne idx) (by simpa using h)
            · exact (not_not.mp (by simpa using h) :
                some (oracle idx) = last).symm
          rw [hlast]
          exact hrest
      · exact ih idx (bo + bs) off last
    · rfl

/-! ## `detect_lipsync` — array mode (`print_as_array = True`) -/

/-- The fixed viseme table `ovr_viseme_ids` (ovrlipsync.py, lines 20–24). -/
def ovr_viseme_ids : List String :=
  "ovr_sil" :: "ovr_PP" :: "ovr_FF" :: "ovr_TH" :: "ovr_DD" ::
    "ovr_kk" :: "ovr_CH" :: "ovr_SS" :: "ovr_nn" :: "ovr_RR" ::
    "ovr_aa" :: "ovr_E" :: "ovr_I" :: "ovr_O" :: "ovr_U" :: []

/-- `np.argmax` over a 1-D array: index of the first occurrence of the
maximum. numpy raises on an empty array; the model returns 0 there, and
every use below is guarded by nonemptiness. -/
def np_argmax_go (best : Nat) (bestVal : ℚ) (i : Nat) : List ℚ → Nat
  | [] => best
  | y :: ys =>
    if bestVal < y then np_argmax_go i y (i + 1) ys
    else np_argmax_go best bestVal (i + 1) ys

def np_argmax : List ℚ → Nat
  | [] => 0
  | x :: xs => np_argmax_go 0 x 1 xs

theorem np_argmax_go_lt (ys : List ℚ) :
    ∀ (best : Nat) (bv : ℚ) (i : Nat), best < i →
      np_argmax_go best bv i ys < i + ys.length := by
  induction ys with
  | nil =>
    intro best bv i h
    simpa [np_argmax_go] using h
  | cons y ys ih =>
    intro best bv i h
    simp only [np_argmax_go, List.length_cons]
    split
    · have := ih i y (i + 1) (Nat.lt_succ_self i)
      omega
    · have := ih best bv (i + 1) (by omega)
      omega

theorem np_argmax_lt (l : List ℚ) (h : l ≠ []) : np_argmax l < l.length := by
  cases l with
  | nil => exact absurd rfl h
  | cons x xs =>
    have h1 := np_argmax_go_lt xs 0 x 1 Nat.zero_lt_one
    simp only [np_argmax, List.length_cons]
    omega

/-- `np.convolve(signal, np.ones(w)/w, mode='valid')` applied by
`moving_avg`: when the signal is at least as long as the window, the
sliding-window means; when strictly shorter, numpy still emits
`w - n + 1` "valid" positions, each equal to the full-signal sum divided
by `w`. -/
def moving_avg (array : List ℚ) (w : Nat) : List ℚ :=
  if w ≤ array.length then
    (List.range (array.length - w + 1)).map
      fun i => ((array.drop i).take w).sum / (w : ℚ)
  else
    List.replicate (w - array.length + 1) (array.sum / (w : ℚ))

theorem moving_avg_length (a : List ℚ) (w : Nat) :
    (moving_avg a w).length =
      if w ≤ a.length then a.length - w + 1 else w - a.length + 1 := by
  unfold moving_avg
  split
  · simp
  · simp

/-- numpy 2-D transpose `m.T` for a rectangular array: row `j` of the
result collects entry `j` of every input row. -/
def npT (m : List (List ℚ)) : List (List ℚ) :=
  (List.range (m.headD []).length).map fun j => m.map fun row => row.getD j 0

theorem npT_length (m : List (List ℚ)) :
    (npT m).length = (m.headD []).length := by
  simp [npT]

theorem npT_mem_length (m : List (List ℚ)) (r : List ℚ) (h : r ∈ npT m) :
    r.length = m.length := by
  unfold npT at h
  obtain ⟨j, _, rfl⟩ := List.mem_map.mp h
  simp

/-- The dominant-signal change detection at the end of
`analyze_viseme_arrays` (ovrlipsync.py, lines 59–67): walk the per-frame
arg-max channels, and whenever the dominant channel differs from the
previous frame's, emit an event at offset `i * buffer_ms / 1000` with the
id from `ovr_viseme_ids` (Python's `ovr_viseme_ids[signal]` raises above
index 14; the model's `getD` default is unreachable under the theorems'
channel-count hypothesis). The source accumulates by in-place `append`;
the model returns the same list cons-structured. -/
def viseme_change_loop (ms : Nat) :
    List Nat → Nat → Option Nat → List VisemeEvent
  | [], _, _ => []
  | s :: rest, i, last =>
    if some s ≠ last then
      ⟨(i : ℚ) * (ms : ℚ) / 1000, ovr_viseme_ids.getD s ""⟩ ::
        viseme_change_loop ms rest (i + 1) (some s)
    else viseme_change_loop ms rest (i + 1) last

/-- `analyze_viseme_arrays` (ovrlipsync.py, lines 47–69): transpose the
frame×channel activation matrix, smooth each channel with a `window_size`
moving average, transpose back, take the per-frame arg-max channel, and
emit an event whenever the dominant channel changes. -/
def analyze_viseme_arrays (ms : Nat) (viseme_arrays : List (List ℚ))
    (window_size : Nat) : List VisemeEvent :=
  let smoothed_signals :=
    (npT viseme_arrays).map fun signal => moving_avg signal window_size
  let smoothed_stream := npT smoothed_signals
  let dominant_signals := smoothed_stream.map np_argmax
  viseme_change_loop ms dominant_signals 0 none

/-- The array-mode collection in `detect_lipsync`'s while loop: per full
frame, `parse_array(viseme)` is appended to `viseme_arrays`. `oracle i` is
the parsed activation vector for the i-th processed frame (`parse_array`
itself — `;`-splitting and Python float parsing of the external coprocess
protocol — is abstracted into the oracle). -/
def collect_arrays_loop (oracle : Nat → List ℚ) (bs : Nat)
    (audio : List Nat) : Nat → Nat → Nat → List (List ℚ)
  | 0, _, _ => []
  | fuel + 1, idx, bo =>
    if bo < audio.length then
      if (pySlice audio (bo : Int) ((bo : Int) + (bs : Int))).length = bs
      then
        oracle idx ::
          collect_arrays_loop oracle bs audio fuel (idx + 1) (bo + bs)
      else collect_arrays_loop oracle bs audio fuel idx (bo + bs)
    else []

/-- Array-mode `detect_lipsync` (ovrlipsync.py, lines 113–140 with
`print_as_array = True`): collect the per-frame activation vectors and
hand them to `analyze_viseme_arrays` with the default `window_size = 3`. -/
def detect_lipsync_arrays (oracle : Nat → List ℚ) (bs ms : Nat)
    (audio : List Nat) : List VisemeEvent :=
  analyze_viseme_arrays ms
    (collect_arrays_loop oracle bs audio (audio.length + 1) 0
      (detect_start_offset audio)) 3

theorem collect_arrays_mem (oracle : Nat → List ℚ) (bs : Nat)
    (audio : List Nat) :
    ∀ (fuel idx bo : Nat) (row : List ℚ),
      row ∈ collect_arrays_loop oracle bs audio fuel idx bo →
      ∃ i, row = oracle i := by
  intro fuel
  induction fuel with
  | zero => intro idx bo row h; exact absurd h (by simp [collect_arrays_loop])
  | succ n ih =>
    intro idx bo row h
    rw [collect_arrays_loop] at h
    split at h
    · split at h
      · rcases List.mem_cons.mp h with rfl | h
        · exact ⟨idx, rfl⟩
        · exact ih (idx + 1) (bo + bs) row h
      · exact ih idx (bo + bs) row h
    · exact absurd h (by simp)

theorem ovr_viseme_ids_inj :
    ∀ a : Nat, a < 15 → ∀ b : Nat, b < 15 → a ≠ b →
      ovr_viseme_ids.getD a "" ≠ ovr_viseme_ids.getD b "" := by
  decide

theorem viseme_change_loop_ordered (ms : Nat) :
    ∀ (ds : List Nat) (i : Nat) (last : Option Nat),
      orderedFrom ((i : ℚ) * (ms : ℚ) / 1000)
        (viseme_change_loop ms ds i last) = true := by
  intro ds
  induction ds with
  | nil => intro i last; rfl
  | cons s rest ih =>
    intro i last
    have hstep : (i : ℚ) * (ms : ℚ) / 1000 ≤
        ((i : ℚ) + 1) * (ms : ℚ) / 1000 := by
      have h1 : (0 : ℚ) ≤ (ms : ℚ) := by positivity
      have h2 : (i : ℚ) * (ms : ℚ) ≤ ((i : ℚ) + 1) * (ms : ℚ) := by nlinarith
      linarith
    rw [viseme_change_loop]
    split
    · simp only [orderedFrom, Bool.and_eq_true, decide_eq_true_eq]
      refine ⟨le_refl _, ?_⟩
      have := ih (i + 1) (some s)
      rw [Nat.cast_add, Nat.cast_one] at this
      exact orderedFrom_weaken _ _ _ hstep this
    · have := ih (i + 1) last
      rw [Nat.cast_add, Nat.cast_one] at this
      exact orderedFrom_weaken _ _ _ hstep this

theorem viseme_change_loop_adjacent (ms : Nat) :
    ∀ (ds : List Nat) (i : Nat) (last : Option Nat),
      (∀ s ∈ ds, s < 15) → (∀ l, last = some l → l < 15) →
      adjacentFrom (last.map fun l => ovr_viseme_ids.getD l "")
        (viseme_change_loop ms ds i last) = true := by
  intro ds
  induction ds with
  | nil => intro i last _ _; rfl
  | cons s rest ih =>
    intro i last hds hlast
    have hs : s < 15 := hds s (List.mem_cons_self s rest)
    have hrest : ∀ x ∈ rest, x < 15 := fun x hx =>
      hds x (List.mem_cons_of_mem s hx)
    rw [viseme_change_loop]
    split
    · rename_i hneq
      simp only [adjacentFrom, Bool.and_eq_true]
      refine ⟨?_, ih (i + 1) (some s) hrest
        (fun l hl => by injection hl with h; omega)⟩
      cases last with
      | none => rfl
      | some l =>
        show decide (ovr_viseme_ids.getD s "" ≠ ovr_viseme_ids.getD l "")
          = true
        rw [decide_eq_true_eq]
        exact ovr_viseme_ids_inj s hs l (hlast l rfl)
          (fun h => hneq (by rw [h]))
    · rename_i hneq
      have hlast' : last = some s :=
        (not_not.mp (by simpa using hneq) : some s = last).symm
      rw [hlast']
      exact ih (i + 1) (some s) hrest
        (fun l hl => by injection hl with h; omega)

/-- Array-mode invariants: for a rectangular activation matrix with
`0 < c ≤ 15` channels, the events emitted by `analyze_viseme_arrays` have
nondecreasing offsets and pairwise-distinct adjacent viseme ids. -/
theorem analyze_viseme_arrays_invariants (ms : Nat)
    (arrays : List (List ℚ)) (c : Nat) (hc1 : 0 < c) (hc15 : c ≤ 15)
    (hrect : ∀ row ∈ arrays, row.length = c) :
    offsetsMono (analyze_viseme_arrays ms arrays 3) = true ∧
    adjacentDistinct (analyze_viseme_arrays ms arrays 3) = true := by
  cases arrays with
  | nil => exact ⟨rfl, rfl⟩
  | cons a rest =>
    have hds : ∀ s ∈ (npT (((npT (a :: rest)).map
        fun signal => moving_avg signal 3))).map np_argmax, s < 15 := by
      intro s hs
      obtain ⟨r, hr, rfl⟩ := List.mem_map.mp hs
      have hrlen : r.length = c := by
        have h1 := npT_mem_length _ r hr
        rw [List.length_map, npT_length] at h1
        have h2 : ((a :: rest).headD []).length = c :=
          hrect a (List.mem_cons_self a rest)
        rw [h1, h2]
      have hne : r ≠ [] := by
        intro h
        rw [h] at hrlen
        simp at hrlen
        omega
      have := np_argmax_lt r hne
      omega
    unfold analyze_viseme_arrays
    simp only []
    constructor
    · exact offsetsMono_of_orderedFrom _ _
        (viseme_change_loop_ordered ms _ 0 none)
    · exact viseme_change_loop_adjacent ms _ 0 none hds
        (fun l hl => by cases hl)

/-- C8, counterexample: in event mode, an empty coprocess response between
two identical responses yields two consecutive events with the same viseme
id. With responses "aa", "", "aa" over three full frames, the source emits
`ovr_aa` twice in a row (the middle frame emits nothing — empty strings
are falsy — but still overwrites `last_viseme`), refuting "no two
consecutive events carry the same viseme_id". -/
theorem C8_counterexample :
    ¬ (offsetsMono (detect_lipsync_events (fun i => if i = 1 then "" else
          "aa") 2 10 (0 :: 0 :: 0 :: 0 :: 0 :: 0 :: []) 0) = true ∧
      adjacentDistinct (detect_lipsync_events (fun i => if i = 1 then ""
          else "aa") 2 10 (0 :: 0 :: 0 :: 0 :: 0 :: 0 :: []) 0) = true) :=
  fun h => absurd h.2 (by decide)

/-- C8 (amended): per call to `detect_lipsync`, (1) in event mode the
event offsets are nondecreasing provided the starting offset lies on the
2-decimal grid to which the source rounds (in particular the default
`0.0`); (2) in event mode no two consecutive events share a viseme id
provided every coprocess response is nonempty — an empty (Python-falsy)
response between two identical responses breaks this, as it emits no event
yet overwrites `last_viseme`; (3) in array mode, for per-frame activation
vectors of a fixed positive length of at most 15 channels, offsets are
nondecreasing and adjacent events carry distinct viseme ids. -/
theorem C8_lipsync_event_invariants :
    (∀ (oracle : Nat → String) (bs ms : Nat) (audio : List Nat) (x0 : ℚ),
      onGrid x0 →
      offsetsMono (detect_lipsync_events oracle bs ms audio x0) = true) ∧
    (∀ (oracle : Nat → String) (bs ms : Nat) (audio : List Nat) (x0 : ℚ),
      (∀ i, oracle i ≠ "") →
      adjacentDistinct (detect_lipsync_events oracle bs ms audio x0)
        = true) ∧
    (∀ (oracle : Nat → List ℚ) (bs ms : Nat) (audio : List Nat) (c : Nat),
      0 < c → c ≤ 15 → (∀ i, (oracle i).length = c) →
      offsetsMono (detect_lipsync_arrays oracle bs ms audio) = true ∧
      adjacentDistinct (detect_lipsync_arrays oracle bs ms audio)
        = true) := by
  refine ⟨?_, ?_, ?_⟩
  · intro oracle bs ms audio x0 hgrid
    exact offsetsMono_of_orderedFrom x0 _
      (detect_loop_ordered oracle bs ms audio _ 0 _ x0 none hgrid)
  · intro oracle bs ms audio x0 hne
    exact detect_loop_adjacent oracle bs ms audio hne _ 0 _ x0 none
  · intro oracle bs ms audio c hc1 hc15 hlen
    unfold detect_lipsync_arrays
    exact analyze_viseme_arrays_invariants ms _ c hc1 hc15
      (fun row hrow => by
        obtain ⟨i, rfl⟩ := collect_arrays_mem oracle bs audio _ _ _ row hrow
        exact hlen i)

/-- C8 witness: the amended invariants at concrete calls — event mode with
constant nonempty responses "aa" and default starting offset 0, and array
mode with constant one-channel activation vectors. -/
theorem C8_witness :
    offsetsMono (detect_lipsync_events (fun _ => "aa") 2 10
      (0 :: 0 :: 0 :: 0 :: []) 0) = true ∧
    adjacentDistinct (detect_lipsync_events (fun _ => "aa") 2 10
      (0 :: 0 :: 0 :: 0 :: []) 0) = true ∧
    offsetsMono (detect_lipsync_arrays (fun _ => (1 : ℚ) :: []) 2 10
      (0 :: 0 :: 0 :: 0 :: [])) = true ∧
    adjacentDistinct (detect_lipsync_arrays (fun _ => (1 : ℚ) :: []) 2 10
      (0 :: 0 :: 0 :: 0 :: [])) = true := by
  have haa : ("aa" : String) ≠ "" := by decide
  exact ⟨C8_lipsync_event_invariants.1 (fun _ => "aa") 2 10
      (0 :: 0 :: 0 :: 0 :: []) 0 onGrid_zero,
    C8_lipsync_event_invariants.2.1 (fun _ => "aa") 2 10
      (0 :: 0 :: 0 :: 0 :: []) 0 (fun _ => haa),
    (C8_lipsync_event_invariants.2.2 (fun _ => (1 : ℚ) :: []) 2 10
      (0 :: 0 :: 0 :: 0 :: []) 1 (by decide) (by decide) (fun _ => rfl)).1,
    (C8_lipsync_event_invariants.2.2 (fun _ => (1 : ℚ) :: []) 2 10
      (0 :: 0 :: 0 :: 0 :: []) 1 (by decide) (by decide) (fun _ => rfl)).2⟩

/-! ## `create_speech` provider retry loop
(src/vocode/streaming/synthesizer/eleven_labs_synthesizer.py,
lines 157–190) -/

/-- Outcome of one `session.request` call as seen by the retry loop: a
successful response (`response.ok`), HTTP 429, any other non-success
status, an `asyncio.TimeoutError`, or another exception raised by the
request itself (re-raised by the loop's final `except`). -/
inductive ProviderOutcome
  | ok
  | status429
  | otherStatus (code : Nat)
  | timeoutErr
  | requestError
deriving DecidableEq

/-- How `create_speech` leaves the retry phase: proceed with a successful
response, raise the "Failed to retrieve response from ElevenLabs after
{attempts} tries for {text}" exception (which carries the utterance text
and the attempt counter), or re-raise a request exception. -/
inductive SpeechOutcome
  | success
  | failure (text : String) (attempts : Nat)
  | reraised
deriving DecidableEq

/-- The `while attempts < max_attempts` retry loop of `create_speech`,
followed by the `if not response or not response.ok: raise` check.
`oracle i` is the outcome of the i-th HTTP request; `resp` is the last
value assigned to `response` (unchanged when the request itself raised).
On `ok` the loop breaks and the post-check passes. On 429 and on timeout
the source sleeps, multiplies the delay by 1.8, and increments `attempts`.
On any other status the source evaluates
`Exception(f"ElevenLabs API returned {status} status code")` WITHOUT
`raise`: the constructed exception is discarded and the loop re-enters
with `attempts` unchanged. Fuel counts loop iterations; `none` means the
loop is still running after `fuel` iterations — no finite fuel completes
it, i.e. the source loops forever. -/
def create_speech_loop (oracle : Nat → ProviderOutcome) (text : String) :
    Nat → Nat → Nat → ℚ → Option ProviderOutcome → Option SpeechOutcome
  | 0, _, _, _, _ => none
  | fuel + 1, attempts, reqIdx, delay, resp =>
    if attempts < 3 then
      match oracle reqIdx with
      | ProviderOutcome.ok => some SpeechOutcome.success
      | ProviderOutcome.status429 =>
        create_speech_loop oracle text fuel (attempts + 1) (reqIdx + 1)
          (delay * 9 / 5) (some ProviderOutcome.status429)
      | ProviderOutcome.otherStatus c =>
        create_speech_loop oracle text fuel attempts (reqIdx + 1) delay
          (some (ProviderOutcome.otherStatus c))
      | ProviderOutcome.timeoutErr =>
        create_speech_loop oracle text fuel (attempts + 1) (reqIdx + 1)
          (delay * 9 / 5) resp
      | ProviderOutcome.requestError => some SpeechOutcome.reraised
    else
      match resp with
      | some ProviderOutcome.ok => some SpeechOutcome.success
      | _ => some (SpeechOutcome.failure text attempts)

/-- The retry phase of `create_speech`: `max_attempts = 3`,
`delay = 0.5`, `backoff = 1.8`, `attempts = 0`, `response = None`. -/
def create_speech (oracle : Nat → ProviderOutcome) (text : String)
    (fuel : Nat) : Option SpeechOutcome :=
  create_speech_loop oracle text fuel 0 0 (1 / 2) none

theorem create_speech_loop_other_forever (text : String) (code : Nat) :
    ∀ (fuel reqIdx : Nat) (delay : ℚ) (resp : Option ProviderOutcome),
      create_speech_loop (fun _ => ProviderOutcome.otherStatus code) text
        fuel 0 reqIdx delay resp = none := by
  intro fuel
  induction fuel with
  | zero => intro reqIdx delay resp; rfl
  | succ n ih =>
    intro reqIdx delay resp
    exact ih (reqIdx + 1) delay (some (ProviderOutcome.otherStatus code))

/-- C1: against a provider that answers a non-success, non-429 status
(e.g. HTTP 500) on every request, `create_speech` neither fails hard nor
terminates: the `Exception(...)` on such a status is constructed but never
raised, `attempts` is never incremented, and the `while attempts <
max_attempts` loop re-issues the request forever — no fuel bound completes
the loop, so no error carrying the utterance text and attempt count is
ever surfaced, contradicting the claimed hard failure without retry. -/
theorem C1_create_speech_500_loops_forever (fuel : Nat) :
    create_speech (fun _ => ProviderOutcome.otherStatus 500) "hello" fuel
      = none :=
  create_speech_loop_other_forever "hello" 500 fuel 0 (1 / 2) none

/-! ## Websocket output channel
(src/vocode/streaming/output_device/websocket_output_device.py) -/

/-- A message on the output queue. The source enqueues serialized
`AudioMessage`/`TranscriptMessage` payloads (their model classes live in
`vocode/streaming/models/websocket.py`, outside the sources under study);
following spec §6, an audio message carries audio bytes plus an optional
viseme batch and a transcript message carries the transcript event fields,
here abstracted to one field. -/
inductive OutMsg
  | audio (chunk : List Nat) (lipsync_events : List VisemeEvent)
  | transcript (event : Nat)
deriving DecidableEq

/-- The mutable state of a `WebsocketOutputDevice` together with the two
ghost histories the theorems speak about: `written` is the sequence of
messages sent over the websocket, `enqueued` the sequence of messages
accepted into the queue. `taskAlive` records whether the consumer
`process()` task is running (spawned by `start`, cancelled and awaited by
`terminate`); `connected` mirrors `ws.client_state != DISCONNECTED`. -/
structure ChannelState where
  active : Bool
  connected : Bool
  taskAlive : Bool
  queue : List OutMsg
  written : List OutMsg
  enqueued : List OutMsg
deriving DecidableEq

/-- `__init__`: inactive, empty queue, no consumer task; the websocket is
connected when handed in. -/
def ws_init : ChannelState :=
  { active := false, connected := true, taskAlive := false, queue := [],
    written := [], enqueued := [] }

/-- `start()`: set `active` and spawn the `process()` task. -/
def ws_start (s : ChannelState) : ChannelState :=
  { s with active := true, taskAlive := true }

/-- `mark_closed()`: clear `active` (the consumer task is not touched). -/
def mark_closed (s : ChannelState) : ChannelState :=
  { s with active := false }

/-- `terminate()`: `mark_closed`, cancel the `process()` task and await
its exit, swallowing the cancellation. -/
def ws_terminate (s : ChannelState) : ChannelState :=
  { s with active := false, taskAlive := false }

/-- `consume_nonblocking(chunk, lipsync_events, span)`: only when the
channel is active, build the audio message and `put_nowait` it; otherwise
do nothing and raise nothing. -/
def consume_nonblocking (s : ChannelState) (chunk : List Nat)
    (lipsync_events : List VisemeEvent) : ChannelState :=
  if s.active then
    { s with
        queue := s.queue ++ [OutMsg.audio chunk lipsync_events],
        enqueued := s.enqueued ++ [OutMsg.audio chunk lipsync_events] }
  else s

/-- `consume_transcript(event)`: as `consume_nonblocking`, for transcript
messages. -/
def consume_transcript (s : ChannelState) (event : Nat) : ChannelState :=
  if s.active then
    { s with
        queue := s.queue ++ [OutMsg.transcript event],
        enqueued := s.enqueued ++ [OutMsg.transcript event] }
  else s

/-- The external websocket moving to the DISCONNECTED client state. -/
def ws_disconnect (s : ChannelState) : ChannelState :=
  { s with connected := false }

/-- One iteration of the consumer loop `process()` once `queue.get()` has
returned the head message `m`: the message leaves the queue, and is sent
over the websocket only if the channel is still active and the websocket
connected (the source's re-check after the `get`). -/
def ws_deliver (s : ChannelState) (m : OutMsg) (rest : List OutMsg) :
    ChannelState :=
  { s with
      queue := rest,
      written := if s.active && s.connected then s.written ++ [m]
        else s.written }

/-- One scheduler step of a session using the channel. `deliver`'s
pop-check-send is modelled as one atomic step, matching the cooperative
single-threaded event loop at await granularity (spec §5). -/
inductive ChannelStep : ChannelState → ChannelState → Prop
  | stepStart (s : ChannelState) : ChannelStep s (ws_start s)
  | stepMarkClosed (s : ChannelState) : ChannelStep s (mark_closed s)
  | stepTerminate (s : ChannelState) : ChannelStep s (ws_terminate s)
  | consumeAudio (s : ChannelState) (chunk : List Nat)
      (lip : List VisemeEvent) :
      ChannelStep s (consume_nonblocking s chunk lip)
  | consumeTranscript (s : ChannelState) (ev : Nat) :
      ChannelStep s (consume_transcript s ev)
  | disconnectWs (s : ChannelState) : ChannelStep s (ws_disconnect s)
  | deliver (s : ChannelState) (m : OutMsg) (rest : List OutMsg) :
      s.taskAlive = true → s.queue = m :: rest →
      ChannelStep s (ws_deliver s m rest)

/-- The steps of an undisturbed delivery phase: the channel may be
started, fed by any interleaving of producers, and drained — but is not
closed, terminated, or disconnected mid-stream. -/
inductive ChannelStepLive : ChannelState → ChannelState → Prop
  | stepStart (s : ChannelState) : ChannelStepLive s (ws_start s)
  | consumeAudio (s : ChannelState) (chunk : List Nat)
      (lip : List VisemeEvent) :
      ChannelStepLive s (consume_nonblocking s chunk lip)
  | consumeTranscript (s : ChannelState) (ev : Nat) :
      ChannelStepLive s (consume_transcript s ev)
  | deliver (s : ChannelState) (m : OutMsg) (rest : List OutMsg) :
      s.taskAlive = true → s.queue = m :: rest →
      ChannelStepLive s (ws_deliver s m rest)

/-- All channel steps except `start` — the steps available once the
session stops resurrecting the consumer task. -/
inductive ChannelStepNR : ChannelState → ChannelState → Prop
  | stepMarkClosed (s : ChannelState) : ChannelStepNR s (mark_closed s)
  | stepTerminate (s : ChannelState) : ChannelStepNR s (ws_terminate s)
  | consumeAudio (s : ChannelState) (chunk : List Nat)
      (lip : List VisemeEvent) :
      ChannelStepNR s (consume_nonblocking s chunk lip)
  | consumeTranscript (s : ChannelState) (ev : Nat) :
      ChannelStepNR s (consume_transcript s ev)
  | disconnectWs (s : ChannelState) : ChannelStepNR s (ws_disconnect s)
  | deliver (s : ChannelState) (m : OutMsg) (rest : List OutMsg) :
      s.taskAlive = true → s.queue = m :: rest →
      ChannelStepNR s (ws_deliver s m rest)

/-- Invariant of the undisturbed delivery phase: the websocket stays
connected, the accepted messages are exactly the written prefix followed
by the still-queued suffix (in order), and a nonempty queue implies the
channel is active. -/
def liveInv (s : ChannelState) : Prop :=
  s.connected = true ∧ s.enqueued = s.written ++ s.queue ∧
    (s.queue ≠ [] → s.active = true)

theorem liveInv_init : liveInv ws_init := ⟨rfl, rfl, fun h => absurd rfl h⟩

theorem liveInv_step (s t : ChannelState) (hst : ChannelStepLive s t)
    (hinv : liveInv s) : liveInv t := by
  obtain ⟨hconn, henq, hact⟩ := hinv
  cases hst with
  | stepStart => exact ⟨hconn, henq, fun _ => rfl⟩
  | consumeAudio chunk lip =>
    unfold consume_nonblocking
    split
    · rename_i ha
      refine ⟨hconn, ?_, fun _ => ha⟩
      simp only [henq, List.append_assoc]
    · exact ⟨hconn, henq, hact⟩
  | consumeTranscript ev =>
    unfold consume_transcript
    split
    · rename_i ha
      refine ⟨hconn, ?_, fun _ => ha⟩
      simp only [henq, List.append_assoc]
    · exact ⟨hconn, henq, hact⟩
  | deliver m rest halive hq =>
    have hactive : s.active = true := hact (by rw [hq]; simp)
    refine ⟨hconn, ?_, fun hne => hactive⟩
    show s.enqueued =
      (if s.active && s.connected then s.written ++ [m] else s.written)
        ++ rest
    rw [hactive, hconn, henq, hq]
    simp

/-- Along any undisturbed delivery phase from a fresh channel, the
messages accepted in order `o1..on` are exactly the messages written to
the websocket, in that exact order, followed by the messages still
queued. -/
theorem channel_order (s : ChannelState)
    (h : Relation.ReflTransGen ChannelStepLive ws_init s) :
    s.enqueued = s.written ++ s.queue := by
  have hinv : liveInv s := by
    induction h with
    | refl => exact liveInv_init
    | tail hab hbc ih => exact liveInv_step _ _ hbc ih
  exact hinv.2.1

/-- Once the consumer task is gone (`terminate()` completed) and is not
restarted, no step changes the written sequence. -/
theorem channel_quiescent (s t : ChannelState)
    (hdead : s.taskAlive = false)
    (h : Relation.ReflTransGen ChannelStepNR s t) :
    t.written = s.written ∧ t.taskAlive = false := by
  induction h with
  | refl => exact ⟨rfl, hdead⟩
  | tail hab hbc ih =>
    obtain ⟨hw, hd⟩ := ih
    cases hbc with
    | stepMarkClosed => exact ⟨hw, hd⟩
    | stepTerminate => exact ⟨hw, rfl⟩
    | consumeAudio chunk lip =>
      unfold consume_nonblocking
      split <;> exact ⟨hw, hd⟩
    | consumeTranscript ev =>
      unfold consume_transcript
      split <;> exact ⟨hw, hd⟩
    | disconnectWs => exact ⟨hw, hd⟩
    | deliver m rest halive hq => exact absurd halive (by rw [hd]; simp)

/-- C9: (1) along any undisturbed delivery phase — producers interleaving
freely, the consumer draining — the channel writes the enqueued messages
to the transport in exactly their enqueue order (the written sequence is
the prefix of `o1..on` already delivered, the queue holds the rest); and
(2) after `terminate()` completes, the consumer task is dead and — absent
a rogue later `start()` — no further message is ever written. The source's
`terminate` awaits the cancelled `process()` task, so no send can be in
flight afterwards. -/
theorem C9_output_channel_order :
    (∀ s : ChannelState, Relation.ReflTransGen ChannelStepLive ws_init s →
      s.enqueued = s.written ++ s.queue) ∧
    (∀ s : ChannelState, (ws_terminate s).taskAlive = false) ∧
    (∀ s t : ChannelState, s.taskAlive = false →
      Relation.ReflTransGen ChannelStepNR s t → t.written = s.written) :=
  ⟨channel_order, fun _ => rfl,
    fun s t hdead h => (channel_quiescent s t hdead h).1⟩

/-- C9 witness: a concrete run — start the channel, enqueue one audio
message, deliver it — reaches a state whose written sequence is exactly
the enqueued sequence; and on a terminated channel a further producer
submission leaves the written sequence unchanged. -/
theorem C9_witness :
    ((ws_deliver (consume_nonblocking (ws_start ws_init) (1 :: []) [])
        (OutMsg.audio (1 :: []) []) []).enqueued =
      (ws_deliver (consume_nonblocking (ws_start ws_init) (1 :: []) [])
          (OutMsg.audio (1 :: []) []) []).written ++
        (ws_deliver (consume_nonblocking (ws_start ws_init) (1 :: []) [])
          (OutMsg.audio (1 :: []) []) []).queue) ∧
    (consume_nonblocking (ws_terminate (ws_start ws_init))
        (2 :: []) []).written =
      (ws_terminate (ws_start ws_init)).written := by
  constructor
  · have t1 : Relation.ReflTransGen ChannelStepLive ws_init
        (ws_start ws_init) :=
      Relation.ReflTransGen.single (ChannelStepLive.stepStart ws_init)
    have t2 : Relation.ReflTransGen ChannelStepLive ws_init
        (consume_nonblocking (ws_start ws_init) (1 :: []) []) :=
      Relation.ReflTransGen.tail t1
        (ChannelStepLive.consumeAudio (ws_start ws_init) (1 :: []) [])
    have t3 : Relation.ReflTransGen ChannelStepLive ws_init
        (ws_deliver (consume_nonblocking (ws_start ws_init) (1 :: []) [])
          (OutMsg.audio (1 :: []) []) []) :=
      Relation.ReflTransGen.tail t2
        (ChannelStepLive.deliver
          (consume_nonblocking (ws_start ws_init) (1 :: []) [])
          (OutMsg.audio (1 :: []) []) [] rfl rfl)
    exact C9_output_channel_order.1 _ t3
  · exact C9_output_channel_order.2.2 (ws_terminate (ws_start ws_init))
      (consume_nonblocking (ws_terminate (ws_start ws_init)) (2 :: []) [])
      rfl
      (Relation.ReflTransGen.single
        (ChannelStepNR.consumeAudio (ws_terminate (ws_start ws_init))
          (2 :: []) []))

/-- C10: submitting an audio chunk or a transcript event while the channel
is not active — before `start()` or after `mark_closed()`/`terminate()` —
leaves the channel state (queue included) entirely unchanged, and no error
reaches the producer: both consume functions are total and return the
state unmodified. -/
theorem C10_consume_inactive_noop (s : ChannelState) (chunk : List Nat)
    (lip : List VisemeEvent) (ev : Nat) (h : s.active = false) :
    consume_nonblocking s chunk lip = s ∧ consume_transcript s ev = s := by
  unfold consume_nonblocking consume_transcript
  rw [h]
  exact ⟨rfl, rfl⟩

/-- C10 witness: on the freshly initialized (not yet started) channel, a
concrete audio chunk and a concrete transcript event are both discarded
without any state change. -/
theorem C10_witness :
    consume_nonblocking ws_init (1 :: 2 :: []) [] = ws_init ∧
    consume_transcript ws_init 7 = ws_init :=
  C10_consume_inactive_noop ws_init (1 :: 2 :: []) [] 7 rfl

end Vocode
